import Mathlib

/-!
Shallow embedding of the `bizgo` error-classification library
(`errors/code.go` and the companion `BizError` file) and proofs of the
spec's claims about it.

Modelling conventions:
* A Go `error` interface value that may be nil is `Option GoError`.
* A call site is abstracted as a `Nat`: `callers()` and
  `captureLocation(1)` executed inside one `Wrap` call both describe the
  current call site, so both are modelled by the `site` argument of
  `Wrap`.  The `stack` field of a `BizError` and the `Location` field of
  an `ErrorInfo` are therefore both `Nat` in the model.
* `context.Context` values are abstracted as `Option Nat` (nil or some
  opaque token); the library never inspects them.
* The variadic `obj ...interface{}` argument is abstracted as `List Nat`.
-/

namespace Bizgo

/-- Model of a Go `error` value reachable in this library.  `basic` is an
error with no `Unwrap` method (e.g. `errors.New`); `wrapNil`/`wrapped`
are non-`BizError` errors whose `Unwrap` returns nil / a cause;
`bizNil`/`biz` are `*BizError` values whose `err` field is nil / non-nil
(`bizNil` arises only from literal construction such as
`&BizError{key: k}`, since `Wrap` never stores a nil cause). -/
inductive GoError : Type where
  | basic (msg : String)
  | wrapNil (msg : String)
  | wrapped (msg : String) (cause : GoError)
  | bizNil (key uuid : String) (stack : Nat)
  | biz (key uuid : String) (stack : Nat) (err : GoError)
  deriving DecidableEq

/-- Model of `errors.As(err, &bizErr)` for target type `*BizError` on a
non-nil `err`: walk the `Unwrap` chain and return the fields
`(key, uuid, stack, err)` of the first `*BizError` found, or `none`. -/
def findBiz : GoError → Option (String × String × Nat × Option GoError)
  | .basic _ => none
  | .wrapNil _ => none
  | .wrapped _ c => findBiz c
  | .bizNil k u s => some (k, u, s, none)
  | .biz k u s e => some (k, u, s, some e)

/-- Size measure on error chains, used for termination of `Equal`. -/
def esize : GoError → Nat
  | .basic _ => 1
  | .wrapNil _ => 1
  | .wrapped _ c => esize c + 1
  | .bizNil _ _ _ => 1
  | .biz _ _ _ e => esize e + 1

theorem findBiz_esize_lt {e e' : GoError} {k u : String} {s : Nat}
    (h : findBiz e = some (k, u, s, some e')) : esize e' < esize e := by
  induction e with
  | basic m => simp [findBiz] at h
  | wrapNil m => simp [findBiz] at h
  | wrapped m c ih =>
    rw [findBiz] at h
    have := ih h
    simp only [esize]
    omega
  | bizNil k0 u0 s0 => simp [findBiz] at h
  | biz k0 u0 s0 e0 ih =>
    simp only [findBiz, Option.some.injEq, Prod.mk.injEq] at h
    obtain ⟨-, -, -, he⟩ := h
    rw [← he]
    simp [esize]

/-- Model of `BizCode` (`code.go`): an unexported `ctx` field and an
exported `Key` field. -/
structure BizCode : Type where
  ctx : Option Nat
  Key : String
  deriving DecidableEq

/-- Model of `BizCode.Ctx`: returns a copy with the same `Key` and the
given context. -/
def BizCode.Ctx (r : BizCode) (c : Option Nat) : BizCode :=
  { Key := r.Key, ctx := c }

/-- Model of the `ErrorInfo` record passed to the logger, with the same
field names as the source. -/
structure ErrorInfo : Type where
  Ctx : Option Nat
  Err : GoError
  Location : Nat
  Value : List Nat
  Uuid : String
  deriving DecidableEq

/-- The uuid `Wrap` resolves for a non-nil cause `e`: the uuid of the
`*BizError` found by `errors.As` in `e`'s chain, else the constant
`"123"` that the source assigns in the first-wrap branch. -/
def resolvedUuid (e : GoError) : String :=
  match findBiz e with
  | some (_, u, _, _) => u
  | none => "123"

/-- The stack `Wrap` resolves for a non-nil cause `e` wrapped at call
site `site`: the stack of the `*BizError` found by `errors.As` in `e`'s
chain, else `callers()` at the current site. -/
def resolvedStack (e : GoError) (site : Nat) : Nat :=
  match findBiz e with
  | some (_, _, s, _) => s
  | none => site

/-- Model of `BizCode.Wrap`.  Returns the error result together with the
list of `ErrorInfo` records emitted to the logger during the call (the
call's only side effect).  A nil cause returns nil before the logger is
reached; otherwise a new `BizError{key: r.Key, err: e}` is built, its
`stack`/`uuid` taken from the `*BizError` found in `e`'s chain or
freshly assigned, and the logger is invoked exactly once with
`ErrorInfo{Ctx: r.ctx, Err: e, Location: captureLocation(1),
Value: obj, Uuid: newBizErr.uuid}`. -/
def BizCode.Wrap (r : BizCode) (err : Option GoError) (site : Nat)
    (obj : List Nat) : Option GoError × List ErrorInfo :=
  match err with
  | none => (none, [])
  | some e =>
    (some (.biz r.Key (resolvedUuid e) (resolvedStack e site) e),
      [⟨r.ctx, e, site, obj, resolvedUuid e⟩])

/-- Model of the body of `BizCode.Equal` on a non-nil argument, with the
recursive call `r.Equal(bizErr.err)` (made only when `bizErr.err != nil`)
inlined: find the nearest `*BizError` via `errors.As`; if its key
matches return true; otherwise continue from its `err` field; return
false when nothing is found. -/
def equalAux (q : String) (e : GoError) : Bool :=
  match h : findBiz e with
  | none => false
  | some (_k, _, _, none) => q == _k
  | some (_k, _, _, some e') => if q == _k then true else equalAux q e'
termination_by esize e
decreasing_by exact findBiz_esize_lt h

/-- Model of `BizCode.Equal`: false on nil, else `equalAux`. -/
def BizCode.Equal (r : BizCode) (err : Option GoError) : Bool :=
  match err with
  | none => false
  | some e => equalAux r.Key e

/-- The keys of all `*BizError` nodes along an error chain, outermost
first. -/
def chainKeys : GoError → List String
  | .basic _ => []
  | .wrapNil _ => []
  | .wrapped _ c => chainKeys c
  | .bizNil k _ _ => [k]
  | .biz k _ _ e => k :: chainKeys e

theorem chainKeys_of_findBiz_none {e : GoError} (h : findBiz e = none) :
    chainKeys e = [] := by
  induction e with
  | basic m => rfl
  | wrapNil m => rfl
  | wrapped m c ih => rw [findBiz] at h; exact ih h
  | bizNil k u s => simp [findBiz] at h
  | biz k u s e0 => simp [findBiz] at h

theorem chainKeys_of_findBiz_last {e : GoError} {k u : String} {s : Nat}
    (h : findBiz e = some (k, u, s, none)) : chainKeys e = [k] := by
  induction e with
  | basic m => simp [findBiz] at h
  | wrapNil m => simp [findBiz] at h
  | wrapped m c ih => rw [findBiz] at h; rw [chainKeys]; exact ih h
  | bizNil k0 u0 s0 =>
    simp only [findBiz, Option.some.injEq, Prod.mk.injEq] at h
    rw [chainKeys, h.1]
  | biz k0 u0 s0 e0 => simp [findBiz] at h

theorem chainKeys_of_findBiz_some {e e' : GoError} {k u : String} {s : Nat}
    (h : findBiz e = some (k, u, s, some e')) :
    chainKeys e = k :: chainKeys e' := by
  induction e with
  | basic m => simp [findBiz] at h
  | wrapNil m => simp [findBiz] at h
  | wrapped m c ih => rw [findBiz] at h; rw [chainKeys]; exact ih h
  | bizNil k0 u0 s0 => simp [findBiz] at h
  | biz k0 u0 s0 e0 =>
    simp only [findBiz, Option.some.injEq, Prod.mk.injEq] at h
    obtain ⟨h1, -, -, he⟩ := h
    rw [chainKeys, h1, he]

theorem equalAux_le (q : String) :
    ∀ (n : Nat) (e : GoError), esize e ≤ n →
      equalAux q e = decide (q ∈ chainKeys e) := by
  intro n
  induction n with
  | zero =>
    intro e he
    cases e <;> simp [esize] at he
  | succ n ih =>
    intro e he
    rw [equalAux]
    split
    · next h => rw [chainKeys_of_findBiz_none h]; simp
    · next k u s h =>
      rw [chainKeys_of_findBiz_last h]
      by_cases hq : q = k <;> simp [hq]
    · next k u s e' h =>
      have hlt := findBiz_esize_lt h
      rw [chainKeys_of_findBiz_some h, ih e' (by omega)]
      by_cases hq : q = k <;> simp [hq]

/-- `equalAux` decides membership of the key among the chain's
classified nodes. -/
theorem equalAux_eq_mem (q : String) (e : GoError) :
    equalAux q e = decide (q ∈ chainKeys e) :=
  equalAux_le q (esize e) e le_rfl

/-- `Equal` on a non-nil error decides whether the code's key labels
some `*BizError` node of the chain. -/
theorem Equal_eq_mem (r : BizCode) (e : GoError) :
    r.Equal (some e) = decide (r.Key ∈ chainKeys e) :=
  equalAux_eq_mem r.Key e

/-- Model of the `Error()` method of each error value: for a `*BizError`
the source returns `r.key`; for plain errors it is their message. -/
def errorString : GoError → String
  | .basic m => m
  | .wrapNil m => m
  | .wrapped m _ => m
  | .bizNil k _ _ => k
  | .biz k _ _ _ => k

/-- Model of `BizError.Is`.  The receiver is passed as its `key` field
`rkey` and its `err` field `rerr`; the source reads only `r.key`, so
`rerr` is unused.  The body is `errors.As(target, &t) && r.key == t.key`
(`errors.As` on a nil target returns false). -/
def bizErrorIs (rkey : String) (rerr : Option GoError)
    (target : Option GoError) : Bool :=
  match target with
  | none => false
  | some t =>
    match findBiz t with
    | none => false
    | some (k, _, _, _) => rkey == k

/-- The `uuid` field of the `*BizError` at the head of an error value,
if any. -/
def nodeUuid : Option GoError → Option String
  | some (.bizNil _ u _) => some u
  | some (.biz _ u _ _) => some u
  | _ => none

/-- The `stack` field of the `*BizError` at the head of an error value,
if any. -/
def nodeStack : Option GoError → Option Nat
  | some (.bizNil _ _ s) => some s
  | some (.biz _ _ s _) => some s
  | _ => none

/-!
Model of `InitModule`.  A reflected struct is a list of fields; each
field carries the value of its `Key` struct tag (`""` when absent), the
value of its `prefix` struct tag (`""` when absent), its `CanSet` and
`CanAddr` results, and its value.  A field's value is a `BizCode`, a
nested struct, or anything else (`otherV`), mirroring the three cases
the source distinguishes by `field.Type`.

A field value obtained from an addressable struct has `CanAddr() = true`
even when the field is unexported; reflect then marks it read-only, so
`CanSet() = false` and — decisively — `fieldValue.Addr().Interface()`
panics.  Given `CanAddr`, the read-only flag is exactly `¬ CanSet`, so
the struct-kind recursion at `code.go` lines 149–151 panics whenever
`canAddr && !canSet`.  The field walk therefore returns the fields
processed so far (mutation already performed is kept, as a Go panic
unwinds past it) together with `some msg` when a panic occurred and the
remaining fields untouched.
-/

mutual
inductive GoVal : Type where
  | codeV (ctx : Option Nat) (key : String)
  | structV (fields : GoFields)
  | otherV
inductive GoFields : Type where
  | nil
  | cons (ktag ptag : String) (canSet canAddr : Bool) (v : GoVal)
      (rest : GoFields)
end

/-- The nested prefix the source computes for a struct field: the outer
prefix extended by the field's `prefix` tag when that tag is non-empty. -/
def childPre (pre ptag : String) : String :=
  if ptag ≠ "" then pre ++ ptag else pre

/-- The message of the reflect panic raised by `Interface()` on a value
reached through an unexported field. -/
def roPanic : String :=
  "reflect.Value.Interface: cannot return value obtained from unexported field or method"

mutual
/-- Model of the field loop of `InitModule` over the fields of a struct
already known to be reached through a non-nil struct pointer.  The
second component is `some msg` when the loop panicked at the current
field; the fields after it are then left as they were. -/
def initFields (pre : String) : GoFields → GoFields × Option String
  | .nil => (.nil, none)
  | .cons kt pt cs ca v rest =>
    let fv := initFieldVal pre kt pt cs ca v
    match fv.2 with
    | none =>
      let r := initFields pre rest
      (.cons kt pt cs ca fv.1 r.1, r.2)
    | some msg => (.cons kt pt cs ca fv.1 rest, some msg)

/-- Model of the per-field work of `InitModule`.  For a `BizCode` field
the source first sets `Key` to `prefix + tag` when the field is settable
and the `Key` tag is non-empty; since `BizCode` is itself of struct kind
the source then also enters the recursion branch, whose
`fieldValue.Addr().Interface()` panics on a read-only field
(`canAddr && !canSet`); on an exported field the recursive call touches
nothing (the fields of `BizCode` are an interface and a string), so that
recursion is elided.  For a nested struct field the source recurses with
the child prefix when the field is addressable, panicking in the same
way when the field is read-only.  Other fields are untouched. -/
def initFieldVal (pre kt pt : String) (cs ca : Bool) : GoVal → GoVal × Option String
  | .codeV c k =>
    (.codeV c (if cs && decide (kt ≠ "") then pre ++ kt else k),
      if ca && !cs then some roPanic else none)
  | .structV fs =>
    if ca then
      if cs then
        let r := initFields (childPre pre pt) fs
        (.structV r.1, r.2)
      else (.structV fs, some roPanic)
    else (.structV fs, none)
  | .otherV => (.otherV, none)
end

/-- The shapes of the `obj interface{}` argument of `InitModule` that
its guards distinguish: nil, a non-pointer value, a nil pointer, a
pointer to a non-struct, or a non-nil pointer to a struct. -/
inductive GoTarget : Type where
  | nilArg
  | nonPtr
  | nilPtr
  | ptrNonStruct
  | ptrStruct (fields : GoFields)

/-- Model of `InitModule`: the guard returns the argument unchanged
unless it is a non-nil pointer to a struct, in which case the field loop
runs on the struct's fields; the second component reports a reflect
panic escaping the call. -/
def InitModule (pre : String) : GoTarget → GoTarget × Option String
  | .ptrStruct fs =>
    ((.ptrStruct (initFields pre fs).1), (initFields pre fs).2)
  | .nilArg => (.nilArg, none)
  | .nonPtr => (.nonPtr, none)
  | .nilPtr => (.nilPtr, none)
  | .ptrNonStruct => (.ptrNonStruct, none)

/-- The chain `outer.Wrap(middle.Wrap(inner.Wrap(some base)))` of claim
C1, with each wrap's call site and auxiliary values made explicit. -/
def chain3 (cI cM cO : Option Nat) (ikey mkey okey : String) (base : GoError)
    (s1 s2 s3 : Nat) (o1 o2 o3 : List Nat) : Option GoError :=
  ((BizCode.mk cO okey).Wrap
    (((BizCode.mk cM mkey).Wrap
      (((BizCode.mk cI ikey).Wrap (some base) s1 o1).1) s2 o2).1) s3 o3).1

/-- C7: for every Code `c`, `c.Wrap(nil)` returns nil — no Error Node is
constructed (and, a fortiori, nothing is logged) when the cause is nil. -/
theorem C7_wrap_nil_is_noop (r : BizCode) (site : Nat) (obj : List Nat) :
    r.Wrap none site obj = (none, []) := rfl

/-- C8: for every Code `c` and non-nil cause `e`, `c.Wrap(e)` is non-nil
and the `Error()` string of the returned Error Node is `c.Key`, never
the wrapped cause's message. -/
theorem C8_wrap_non_nil_string_is_key (r : BizCode) (e : GoError)
    (site : Nat) (obj : List Nat) :
    (r.Wrap (some e) site obj).1 ≠ none ∧
    ((r.Wrap (some e) site obj).1).map errorString = some r.Key :=
  ⟨by simp [BizCode.Wrap], rfl⟩

/-- C2: the claim says two independently started chains receive
different correlationIds.  The source instead assigns the string
constant `"123"` at every first wrap (`newBizErr.uuid = "123"`), so the
Error Nodes of two chains started from distinct plain causes carry the
same uuid. -/
theorem C2_first_wrap_uuid_is_constant :
    nodeUuid ((BizCode.mk none "k1").Wrap (some (.basic "e1")) 0 []).1 =
      some "123" ∧
    nodeUuid ((BizCode.mk none "k2").Wrap (some (.basic "e2")) 5 []).1 =
      some "123" ∧
    nodeUuid ((BizCode.mk none "k1").Wrap (some (.basic "e1")) 0 []).1 =
      nodeUuid ((BizCode.mk none "k2").Wrap (some (.basic "e2")) 5 []).1 :=
  ⟨rfl, rfl, rfl⟩

/-- C3: when the cause's chain already contains an Error Node (found by
`errors.As`), the node built by `Wrap` copies that node's uuid and stack
verbatim, whatever the wrap's own call site is; hence all Error Nodes of
one chain share the first wrap's uuid and stack. -/
theorem C3_rewrap_inherits_uuid_and_stack (r : BizCode) (e : GoError)
    (k u : String) (s : Nat) (me : Option GoError)
    (h : findBiz e = some (k, u, s, me)) (site : Nat) (obj : List Nat) :
    (r.Wrap (some e) site obj).1 = some (.biz r.Key u s e) := by
  simp [BizCode.Wrap, resolvedUuid, resolvedStack, h]

/-- Witness for C3 at a concrete cause holding an Error Node with uuid
`"42"` and stack `3`: re-wrapping at site `9` inherits both. -/
theorem C3_rewrap_inherits_witness :
    findBiz (.bizNil "i" "42" 3) = some ("i", "42", 3, none) ∧
    ((BizCode.mk none "o").Wrap (some (.bizNil "i" "42" 3)) 9 []).1 =
      some (.biz "o" "42" 3 (.bizNil "i" "42" 3)) :=
  ⟨rfl, C3_rewrap_inherits_uuid_and_stack (BizCode.mk none "o")
    (.bizNil "i" "42" 3) "i" "42" 3 none rfl 9 []⟩

/-- C6 (amended): `Wrap` on a non-nil cause invokes the logger exactly
once, with an `ErrorInfo` carrying this Code's context, the given cause,
the location captured at the *current* call site (`captureLocation(1)`,
not the inherited first-wrap origin), the auxiliary values, and the
resolved uuid; this record list is the call's whole side effect. -/
theorem C6_wrap_event_fields (r : BizCode) (e : GoError) (site : Nat)
    (obj : List Nat) :
    (r.Wrap (some e) site obj).2 = [⟨r.ctx, e, site, obj, resolvedUuid e⟩] :=
  rfl

/-- C6 counterexample: re-wrapping at call site `7` a chain whose first
wrap happened at site `0` produces a node whose resolved origin (stack)
is `0`, yet the logged event's `Location` is `7` — the event does not
carry the resolved origin the claim describes. -/
theorem C6_event_location_not_resolved_origin :
    nodeStack ((BizCode.mk none "out").Wrap
      ((BizCode.mk none "in").Wrap (some (.basic "b")) 0 []).1 7 []).1 =
        some 0 ∧
    (((BizCode.mk none "out").Wrap
      ((BizCode.mk none "in").Wrap (some (.basic "b")) 0 []).1 7 []).2).map
        ErrorInfo.Location = [7] ∧
    ¬ ((((BizCode.mk none "out").Wrap
      ((BizCode.mk none "in").Wrap (some (.basic "b")) 0 []).1 7 []).2).map
        ErrorInfo.Location = [0]) :=
  ⟨rfl, rfl, by decide⟩

/-- C9: the `Is` method is a single-level key comparison: on a target
that is itself an Error Node it returns true iff the keys are equal; it
never reads the receiver's cause; and it returns false when no Error
Node is reachable from the target (including a nil target). -/
theorem C9_is_single_level_key_match (rk : String) (rerr : Option GoError) :
    (∀ (tk tu : String) (ts : Nat) (te : GoError),
      bizErrorIs rk rerr (some (.biz tk tu ts te)) = (rk == tk)) ∧
    (∀ (tk tu : String) (ts : Nat),
      bizErrorIs rk rerr (some (.bizNil tk tu ts)) = (rk == tk)) ∧
    (∀ (rerr' t : Option GoError), bizErrorIs rk rerr t = bizErrorIs rk rerr' t) ∧
    (∀ t : GoError, findBiz t = none → bizErrorIs rk rerr (some t) = false) ∧
    bizErrorIs rk rerr none = false := by
  refine ⟨fun tk tu ts te => rfl, fun tk tu ts => rfl,
    fun rerr' t => rfl, fun t h => ?_, rfl⟩
  simp [bizErrorIs, h]

/-- Witness for C9 at a node receiver with a plain cause: key match on a
node target, and false on a plain target that reaches no Error Node. -/
theorem C9_is_single_level_witness :
    bizErrorIs "a" (some (.basic "r")) (some (.biz "a" "u" 0 (.basic "x"))) =
      ("a" == "a") ∧
    bizErrorIs "a" (some (.basic "r")) (some (.basic "plain")) = false :=
  ⟨(C9_is_single_level_key_match "a" (some (.basic "r"))).1 "a" "u" 0
      (.basic "x"),
    (C9_is_single_level_key_match "a" (some (.basic "r"))).2.2.2.1
      (.basic "plain") rfl⟩

/-- C5: `InitModule` on nil, a non-pointer, a nil struct pointer, or a
pointer to a non-struct returns with the argument unchanged and without
a panic — the guard returns before any reflection work. -/
theorem C5_init_malformed_is_noop (pre : String) :
    InitModule pre .nilArg = (.nilArg, none) ∧
    InitModule pre .nonPtr = (.nonPtr, none) ∧
    InitModule pre .nilPtr = (.nilPtr, none) ∧
    InitModule pre .ptrNonStruct = (.ptrNonStruct, none) :=
  ⟨rfl, rfl, rfl, rfl⟩

/-- C10: the claim says an unsettable (e.g. unexported) `BizCode` field
is left unchanged *without panicking*.  It is left unchanged, but the
call panics: `BizCode` is of struct kind, so an unexported `BizCode`
field enters the recursion branch, where `fieldValue.Addr().Interface()`
panics on a read-only field.  Evaluated here on a struct whose only
field is an unexported `BizCode`: the field keeps its value and the
reflect panic escapes `InitModule`. -/
theorem C10_unexported_code_field_panics :
    InitModule "app"
        (.ptrStruct (.cons "h" "" false true (.codeV none "k") .nil)) =
      (.ptrStruct (.cons "h" "" false true (.codeV none "k") .nil),
        some roPanic) := by
  simp [InitModule, initFields, initFieldVal, roPanic]

theorem chain3_eq (cI cM cO : Option Nat) (ikey mkey okey : String)
    (base : GoError) (s1 s2 s3 : Nat) (o1 o2 o3 : List Nat) :
    chain3 cI cM cO ikey mkey okey base s1 s2 s3 o1 o2 o3 =
      some (.biz okey (resolvedUuid base) (resolvedStack base s1)
        (.biz mkey (resolvedUuid base) (resolvedStack base s1)
          (.biz ikey (resolvedUuid base) (resolvedStack base s1) base))) :=
  rfl

/-- C1: for any chain `outer.Wrap(middle.Wrap(inner.Wrap(base)))` with a
non-nil base, `Equal` of the outer, middle and inner Codes on the
outermost error is true, and `Equal` of any Code whose key labels no
node of the chain (none of the three wrap keys and no classified node
inside `base`) is false: a match anywhere in the chain succeeds, and
only then. -/
theorem C1_equal_matches_any_depth (cI cM cO : Option Nat)
    (ikey mkey okey : String) (base : GoError) (s1 s2 s3 : Nat)
    (o1 o2 o3 : List Nat) :
    (BizCode.mk cO okey).Equal
      (chain3 cI cM cO ikey mkey okey base s1 s2 s3 o1 o2 o3) = true ∧
    (BizCode.mk cM mkey).Equal
      (chain3 cI cM cO ikey mkey okey base s1 s2 s3 o1 o2 o3) = true ∧
    (BizCode.mk cI ikey).Equal
      (chain3 cI cM cO ikey mkey okey base s1 s2 s3 o1 o2 o3) = true ∧
    (∀ (cQ : Option Nat) (q : String), q ≠ okey → q ≠ mkey → q ≠ ikey →
      q ∉ chainKeys base →
      (BizCode.mk cQ q).Equal
        (chain3 cI cM cO ikey mkey okey base s1 s2 s3 o1 o2 o3) = false) := by
  rw [chain3_eq]
  refine ⟨?_, ?_, ?_, ?_⟩
  · rw [Equal_eq_mem]; simp [chainKeys]
  · rw [Equal_eq_mem]; simp [chainKeys]
  · rw [Equal_eq_mem]; simp [chainKeys]
  · intro cQ q h1 h2 h3 h4
    rw [Equal_eq_mem]
    simp [chainKeys, h1, h2, h3, h4]

/-- Witness for C1: the chain `"o".Wrap("m".Wrap("i".Wrap(basic "b")))`
matches the Codes `"o"`, `"m"` and `"i"` and rejects the unrelated Code
`"zz"`. -/
theorem C1_equal_matches_witness :
    (BizCode.mk none "o").Equal
      (chain3 none none none "i" "m" "o" (.basic "b") 0 1 2 [] [] []) = true ∧
    (BizCode.mk none "m").Equal
      (chain3 none none none "i" "m" "o" (.basic "b") 0 1 2 [] [] []) = true ∧
    (BizCode.mk none "i").Equal
      (chain3 none none none "i" "m" "o" (.basic "b") 0 1 2 [] [] []) = true ∧
    (BizCode.mk none "zz").Equal
      (chain3 none none none "i" "m" "o" (.basic "b") 0 1 2 [] [] []) = false := by
  have h := C1_equal_matches_any_depth none none none "i" "m" "o"
    (.basic "b") 0 1 2 [] [] []
  exact ⟨h.1, h.2.1, h.2.2.1,
    h.2.2.2 none "zz" (by decide) (by decide) (by decide) (by decide)⟩

/-- The struct of the spec's Tree Initializer example: a top-level
`BizCode` field tagged `Key:"common"`, and a nested struct field tagged
`prefix:"user"` containing a `BizCode` field tagged `Key:"notFound"`. -/
def exampleFields : GoFields :=
  .cons "common" "" true true (.codeV none "") (
    .cons "" "user" true true
      (.structV (.cons "notFound" "" true true (.codeV none "") .nil)) .nil)

/-- C4: for a settable (exported) `Key`-tagged `BizCode` field the loop
sets the key to `prefix + tag` and continues; for a settable,
addressable nested struct field it recurses with prefix
`prefix + prefixTag` when a `prefix` tag is present and with the prefix
unchanged otherwise (propagating a nested panic and otherwise
continuing); and on the spec's example with prefix `"app"` it yields
keys `"appcommon"` and `"appusernotFound"` with no panic.  (An
*unexported* struct-kind field panics instead — that defect is claim
C10's subject.) -/
theorem C4_init_assigns_composed_keys (pre kt pt k : String)
    (c : Option Nat) (ca : Bool) (fs rest : GoFields) :
    (kt ≠ "" →
      initFields pre (.cons kt pt true ca (.codeV c k) rest) =
        (.cons kt pt true ca (.codeV c (pre ++ kt)) (initFields pre rest).1,
          (initFields pre rest).2)) ∧
    (pt ≠ "" →
      initFields pre (.cons kt pt true true (.structV fs) rest) =
        (match initFields (pre ++ pt) fs with
          | (fs', none) =>
            (.cons kt pt true true (.structV fs') (initFields pre rest).1,
              (initFields pre rest).2)
          | (fs', some m) =>
            (.cons kt pt true true (.structV fs') rest, some m))) ∧
    (initFields pre (.cons kt "" true true (.structV fs) rest) =
      (match initFields pre fs with
        | (fs', none) =>
          (.cons kt "" true true (.structV fs') (initFields pre rest).1,
            (initFields pre rest).2)
        | (fs', some m) =>
          (.cons kt "" true true (.structV fs') rest, some m))) ∧
    InitModule "app" (.ptrStruct exampleFields) = (.ptrStruct (
      .cons "common" "" true true (.codeV none "appcommon") (
        .cons "" "user" true true
          (.structV (.cons "notFound" "" true true
            (.codeV none "appusernotFound") .nil)) .nil)), none) := by
  refine ⟨?_, ?_, ?_, ?_⟩
  · intro hkt
    simp [initFields, initFieldVal, hkt]
  · intro hpt
    rw [initFields]
    simp only [initFieldVal, childPre, hpt, if_true, Bool.and_self,
      ite_not, if_false]
    cases h : initFields (pre ++ pt) fs with
    | mk fs' p => cases p <;> simp [h]
  · rw [initFields]
    simp only [initFieldVal, childPre, ne_eq, not_true_eq_false,
      if_false, ite_true]
    cases h : initFields pre fs with
    | mk fs' p => cases p <;> simp [h]
  · simp [InitModule, exampleFields, initFields, initFieldVal, childPre]

/-- Witness for C4 at prefix `"app"`, key tag `"x"`, prefix tag `"u"`,
with empty nested and remaining fields. -/
theorem C4_init_assigns_witness :
    (initFields "app" (.cons "x" "u" true true (.codeV none "k0") .nil) =
      (.cons "x" "u" true true (.codeV none "appx")
        (initFields "app" .nil).1, (initFields "app" .nil).2)) ∧
    (initFields "app"
        (.cons "x" "u" true true (.structV GoFields.nil) GoFields.nil) =
      (match initFields "appu" GoFields.nil with
        | (fs', none) =>
          (.cons "x" "u" true true (.structV fs')
            (initFields "app" GoFields.nil).1,
            (initFields "app" GoFields.nil).2)
        | (fs', some m) =>
          (.cons "x" "u" true true (.structV fs') GoFields.nil, some m))) ∧
    InitModule "app" (.ptrStruct exampleFields) = (.ptrStruct (
      .cons "common" "" true true (.codeV none "appcommon") (
        .cons "" "user" true true
          (.structV (.cons "notFound" "" true true
            (.codeV none "appusernotFound") .nil)) .nil)), none) := by
  have h := C4_init_assigns_composed_keys "app" "x" "u" "k0" none true
    GoFields.nil GoFields.nil
  exact ⟨h.1 (by decide), h.2.1 (by decide), h.2.2.2⟩

end Bizgo
